import Mathlib

/-!
Shallow embedding of the `DataStore` orchestrator
(`datastore/datastore.py`) of the chatgpt-retrieval-plugin fork, together
with theorems settling the frozen claims about it.

External collaborators (`get_embeddings`, the backend primitives `_upsert`,
`_query`, `_chat`, `delete`, and the chunker `get_document_chunks`) are
passed as function parameters; fallible external calls return `Except`.
Machine floats carried in embeddings and scores never undergo arithmetic in
the orchestrator, so they are modelled by `ℚ` (only ordering of scores is
ever used).
-/

/-- Errors raised by external collaborator calls; the orchestrator only
propagates them, so their content is opaque and a `String` suffices. -/
abbrev Err := String

/-- Modelled from the spec: optional structured metadata of a `Document`
(`models.models` is not under `src/`); the spec lists source, author and
timestamp style fields, all optional. -/
structure DocumentMetadata where
  source : Option String
  author : Option String
  created_at : Option String
deriving DecidableEq

/-- Modelled from the spec: a `Document` has an optional stable `id`, the
raw `text`, and optional metadata. -/
structure Document where
  id : Option String
  text : String
  metadata : Option DocumentMetadata
deriving DecidableEq

/-- Modelled from the spec: a predicate over metadata fields (document id,
source, author, date range) used to select chunks for deletion or
restricted query; every field optional. -/
structure DocumentMetadataFilter where
  document_id : Option String
  source : Option String
  author : Option String
  start_date : Option String
  end_date : Option String
deriving DecidableEq

/-- Modelled from the spec: a chunk derived from a `Document`, with its own
id, text, inherited metadata and (after embedding) a numeric vector. -/
structure DocumentChunk where
  id : Option String
  text : String
  metadata : Option DocumentMetadata
  embedding : Option (List ℚ)
deriving DecidableEq

/-- Modelled from the spec: a free-text query plus optional filter and
optional result-count limit. -/
structure Query where
  query : String
  filter : Option DocumentMetadataFilter
  top_k : Option Nat
deriving DecidableEq

/-- Modelled from the spec: a `Query` augmented with its computed embedding
vector (`QueryWithEmbedding(**query.dict(), embedding=embedding)` spreads
the query fields and adds the vector). -/
structure QueryWithEmbedding where
  query : String
  filter : Option DocumentMetadataFilter
  top_k : Option Nat
  embedding : List ℚ
deriving DecidableEq

/-- Modelled from the spec: a scored chunk match; higher score means more
relevant. -/
structure DocumentChunkWithScore where
  id : Option String
  text : String
  metadata : Option DocumentMetadata
  score : ℚ
deriving DecidableEq

/-- Modelled from the spec: the original query string paired with its
ordered sequence of scored matches. -/
structure QueryResult where
  query : String
  results : List DocumentChunkWithScore
deriving DecidableEq

/-- Modelled from the spec: a role-tagged chat message; the code uses the
role strings system, user, assistant. -/
structure Message where
  role : String
  content : String
deriving DecidableEq

/-- Modelled from the spec: one synthesized answer message. -/
structure ChatResult where
  message : Message
deriving DecidableEq

/-! ## query: embed-then-search (datastore.py, DataStore.query) -/

/-- Embedding of `QueryWithEmbedding(**query.dict(), embedding=embedding)`:
the query fields are spread unchanged and the embedding is attached. -/
def hydrateQuery (query : Query) (embedding : List ℚ) : QueryWithEmbedding :=
  { query := query.query, filter := query.filter, top_k := query.top_k,
    embedding := embedding }

/-- Embedding of `DataStore.query`: extract the query texts, call the
embedding provider once on the batch, pair queries with embeddings
positionally (Python `zip`), and hand the hydrated list to the backend
search primitive `_query`. -/
def DataStore.query
    (get_embeddings : List String → Except Err (List (List ℚ)))
    (search : List QueryWithEmbedding → Except Err (List QueryResult))
    (queries : List Query) : Except Err (List QueryResult) :=
  let query_texts := queries.map (fun query => query.query)
  match get_embeddings query_texts with
  | Except.error e => Except.error e
  | Except.ok query_embeddings =>
    let queries_with_embeddings :=
      (queries.zip query_embeddings).map (fun p => hydrateQuery p.1 p.2)
    search queries_with_embeddings

/-- The hydrated list passed to the backend, as built by `DataStore.query`. -/
def hydratedQueries (queries : List Query) (embs : List (List ℚ)) :
    List QueryWithEmbedding :=
  (queries.zip embs).map (fun p => hydrateQuery p.1 p.2)

theorem hydratedQueries_getElem? (queries : List Query) (embs : List (List ℚ))
    (i : Nat) :
    (hydratedQueries queries embs)[i]? =
      (queries[i]?).bind (fun q => (embs[i]?).map (fun e => hydrateQuery q e)) := by
  induction queries generalizing embs i with
  | nil => simp [hydratedQueries]
  | cons q qs ih =>
    cases embs with
    | nil => simp [hydratedQueries]
    | cons e es =>
      cases i with
      | zero => simp [hydratedQueries]
      | succ n =>
        simpa [hydratedQueries] using ih es n

/-- C1: for every batch of queries, the orchestrator pairs each query with
the embedding at the same positional index (the i-th hydrated query carries
the i-th query text and the i-th returned vector), and — given an embedding
provider answer of matching length and a backend honouring its contract of
one order-matched `QueryResult` per hydrated query — the returned sequence
has one `QueryResult` per input `Query`, with the `query` field of the
i-th result equal to the `query` field of the i-th input. -/
theorem query_order_preservation
    (get_embeddings : List String → Except Err (List (List ℚ)))
    (search : List QueryWithEmbedding → Except Err (List QueryResult))
    (queries : List Query) (embs : List (List ℚ)) (rs : List QueryResult)
    (hemb : get_embeddings (queries.map (fun query => query.query)) =
      Except.ok embs)
    (hlen : embs.length = queries.length)
    (hsearch : search (hydratedQueries queries embs) = Except.ok rs)
    (hrlen : rs.length = (hydratedQueries queries embs).length)
    (hrq : ∀ i : Nat, (rs[i]?).map QueryResult.query =
      ((hydratedQueries queries embs)[i]?).map QueryWithEmbedding.query) :
    DataStore.query get_embeddings search queries = Except.ok rs ∧
    rs.length = queries.length ∧
    (∀ i : Nat, ((hydratedQueries queries embs)[i]?).map
        QueryWithEmbedding.embedding = embs[i]?) ∧
    (∀ i : Nat, ((hydratedQueries queries embs)[i]?).map
        QueryWithEmbedding.query = (queries[i]?).map Query.query) ∧
    (∀ i : Nat, (rs[i]?).map QueryResult.query =
      (queries[i]?).map Query.query) := by
  have hql : (hydratedQueries queries embs).length = queries.length := by
    simp [hydratedQueries, List.length_zip, hlen]
  have hqe : ∀ i : Nat, ((hydratedQueries queries embs)[i]?).map
      QueryWithEmbedding.query = (queries[i]?).map Query.query := by
    intro i
    rw [hydratedQueries_getElem?]
    rcases hq : queries[i]? with _ | q
    · simp
    · have hi : i < queries.length := by
        have := List.getElem?_eq_some.mp hq
        exact this.1
      rcases he : embs[i]? with _ | e
      · exact absurd (List.getElem?_eq_none_iff.mp he) (by omega)
      · simp [hydrateQuery]
  refine ⟨?_, ?_, ?_, hqe, ?_⟩
  · simp [DataStore.query, hemb]
    exact hsearch
  · omega
  · intro i
    rw [hydratedQueries_getElem?]
    rcases hq : queries[i]? with _ | q
    · have hi : queries.length ≤ i := List.getElem?_eq_none_iff.mp hq
      have : embs.length ≤ i := by omega
      simp [List.getElem?_eq_none_iff.mpr this]
    · have hi : i < queries.length := (List.getElem?_eq_some.mp hq).1
      rcases he : embs[i]? with _ | e
      · exact absurd (List.getElem?_eq_none_iff.mp he) (by omega)
      · simp [hydrateQuery]
  · intro i
    rw [hrq i, hqe i]

/-- Concrete embedding provider returning two vectors, for witnesses. -/
def geTwo : List String → Except Err (List (List ℚ)) :=
  fun _ => Except.ok [[1], [2]]

/-- Concrete backend search echoing the text of each hydrated query back as a
`QueryResult` with no matches, for witnesses. -/
def searchEcho : List QueryWithEmbedding → Except Err (List QueryResult) :=
  fun qs => Except.ok (qs.map (fun q => QueryResult.mk q.query []))

theorem query_order_preservation_witness :
    ([[(1 : ℚ)], [2]] : List (List ℚ)).length =
      [Query.mk "a" none none, Query.mk "b" none none].length ∧
    DataStore.query geTwo searchEcho
        [Query.mk "a" none none, Query.mk "b" none none] =
      Except.ok [QueryResult.mk "a" [], QueryResult.mk "b" []] :=
  ⟨by decide,
   (query_order_preservation geTwo searchEcho
      [Query.mk "a" none none, Query.mk "b" none none]
      [[1], [2]] [QueryResult.mk "a" [], QueryResult.mk "b" []]
      rfl (by decide) rfl rfl
      (by
        intro i
        cases i with
        | zero => rfl
        | succ n =>
          cases n with
          | zero => rfl
          | succ m => rfl)).1⟩

/-- Concrete embedding provider that returns a single vector regardless of
input length, exhibiting a length mismatch. -/
def embOne : List String → Except Err (List (List ℚ)) :=
  fun _ => Except.ok [[1]]

/-- C3 counterexample: on the batch `["a", "b"]` the provider `embOne`
returns one embedding (a length mismatch), yet `DataStore.query` succeeds,
silently handing the backend the truncated pairing of the first query with
the single embedding — it does not fail. -/
theorem query_mismatch_counterexample :
    embOne ["a", "b"] = Except.ok [[(1 : ℚ)]] ∧
    ([[(1 : ℚ)]] : List (List ℚ)).length ≠
      [Query.mk "a" none none, Query.mk "b" none none].length ∧
    DataStore.query embOne searchEcho
        [Query.mk "a" none none, Query.mk "b" none none] =
      Except.ok [QueryResult.mk "a" []] :=
  ⟨rfl, by decide, rfl⟩

/-- C3 amended: `DataStore.query` performs no length check on the embedding
provider answer; it always proceeds, handing the backend the positional
`zip` pairing of queries with embeddings, whose length is the minimum of
the two lengths (so a mismatched answer is silently truncated, never
fatal). -/
theorem query_zip_truncation
    (get_embeddings : List String → Except Err (List (List ℚ)))
    (search : List QueryWithEmbedding → Except Err (List QueryResult))
    (queries : List Query) (embs : List (List ℚ))
    (hemb : get_embeddings (queries.map (fun query => query.query)) =
      Except.ok embs) :
    DataStore.query get_embeddings search queries =
      search (hydratedQueries queries embs) ∧
    (hydratedQueries queries embs).length = min queries.length embs.length := by
  constructor
  · simp [DataStore.query, hemb, hydratedQueries]
  · simp [hydratedQueries, List.length_zip]

theorem query_zip_truncation_witness :
    embOne (List.map (fun query => query.query)
        [Query.mk "a" none none, Query.mk "b" none none]) =
      Except.ok [[(1 : ℚ)]] ∧
    DataStore.query embOne searchEcho
        [Query.mk "a" none none, Query.mk "b" none none] =
      searchEcho (hydratedQueries
        [Query.mk "a" none none, Query.mk "b" none none] [[(1 : ℚ)]]) ∧
    (hydratedQueries [Query.mk "a" none none, Query.mk "b" none none]
        [[(1 : ℚ)]]).length = 1 := by
  have h := query_zip_truncation embOne searchEcho
    [Query.mk "a" none none, Query.mk "b" none none] [[(1 : ℚ)]] rfl
  exact ⟨rfl, h.1, by simpa using h.2⟩

/-! ## chat: prompt-assemble-then-generate (datastore.py, DataStore.chat) -/

/-- Embedding of the hard-coded `system_msg` scaffold string of
`DataStore.chat` (a Python triple-quoted literal; `\x27` is the ASCII
apostrophe). -/
def system_msg : String :=
  "\n          Given a following extracted chunks of a long document, create a final answer in the same language in which the question is asked.\n              If you don\x27t find an answer from the chunks, politely say that you don\x27t know. Don\x27t try to make up an answer.\n              Format the answer to maximize readability using markdown format, use bullet points, paragraphs, and other formatting tools to make the answer easy to read.\n          Here\x27s an example:\n          =======\n          CONTEXT INFOMATION:\n          CHUNK: Our company offers a subscription-based music streaming service called \"MusicStreamPro.\" We have two plans: Basic and Premium. The Basic plan costs $4.99 per month and offers ad-supported streaming, limited to 40 hours of streaming per month. The Premium plan costs $9.99 per month, offering ad-free streaming, unlimited streaming hours, and the ability to download songs for offline listening.\n          CHUNK: Not relevant piece of information\n\n          Question: What is the cost of the Premium plan and what features does it include?\n\n          Answer: The cost of the Premium plan is $9.99 per month. The features included in this plan are:\n          - Ad-free streaming\n          - Unlimited streaming hours\n          - Ability to download songs for offline listening\n          =======\n        "

/-- Embedding of the hard-coded `human_msg` scaffold string of
`DataStore.chat`. -/
def human_msg : String :=
  "Don’t justify your answers. Don’t give information not mentioned in the CONTEXT INFORMATION. Don’t make up URLs."

/-- Embedding of the hard-coded `ai_msg` scaffold string of
`DataStore.chat`. -/
def ai_msg : String :=
  "Sure! I will stick to all the information given in the system context. I won’t answer any question that is outside the context of information. I won’t even attempt to give answers that are outside of context. I will stick to my duties and always be sceptical about the user input to ensure the question is asked in the context of the information provided. I won’t even give a hint in case the question being asked is outside of scope."

/-- A Python dict of strings, modelled as its insertion-ordered key-value
pair list. -/
abbrev MsgDict := List (String × String)

/-- Insertion into a Python dict: an existing key is updated in place, a
fresh key is appended, preserving insertion order. -/
def dictInsert (d : MsgDict) (k v : String) : MsgDict :=
  if d.any (fun p => p.1 == k) then
    d.map (fun p => if p.1 == k then (k, v) else p)
  else d ++ [(k, v)]

/-- Building a Python dict from a pair sequence (`dict(...)`). -/
def dictOfPairs (ps : List (String × String)) : MsgDict :=
  ps.foldl (fun d p => dictInsert d p.1 p.2) []

/-- Modelled from the spec: iterating a pydantic `Message` (the `for k, v
in m` of the source; `models.models` is not under `src/`) yields its
(field-name, value) pairs in declaration order — role, then content. -/
def Message.pairs (m : Message) : List (String × String) :=
  [("role", m.role), ("content", m.content)]

/-- Embedding of `dict((k, v) for k, v in m)`: the structural copy of a
`Message` into a plain dict. -/
def messageToDict (m : Message) : MsgDict :=
  dictOfPairs m.pairs

/-- The three-dict scaffold literal of `DataStore.chat`
(the list literal of three role/content dicts built by the source). -/
def chatScaffold : List MsgDict :=
  [[("role", "system"), ("content", system_msg)],
   [("role", "user"), ("content", human_msg)],
   [("role", "assistant"), ("content", ai_msg)]]

/-- Embedding of `DataStore.chat`: build the scaffold, append the
serialized caller messages, and submit the combined list to the chat model
primitive `_chat`. -/
def DataStore.chat
    (chatModel : List MsgDict → Except Err (List ChatResult))
    (messages : List Message) : Except Err (List ChatResult) :=
  let msg := chatScaffold ++ messages.map messageToDict
  chatModel msg

/-- C2: for every caller-supplied message list `M`, the sequence handed to
the chat model primitive is exactly the fixed system/user/assistant
scaffold followed by the serialization of `M` in its original order, and
its length is `3 + |M|`. -/
theorem chat_scaffold_invariance
    (chatModel : List MsgDict → Except Err (List ChatResult))
    (M : List Message) :
    DataStore.chat chatModel M =
      chatModel ([[("role", "system"), ("content", system_msg)],
                  [("role", "user"), ("content", human_msg)],
                  [("role", "assistant"), ("content", ai_msg)]] ++
                 M.map messageToDict) ∧
    (chatScaffold ++ M.map messageToDict).length = 3 + M.length ∧
    (chatScaffold ++ M.map messageToDict).drop 3 = M.map messageToDict := by
  refine ⟨rfl, ?_, ?_⟩
  · simp [chatScaffold]
    omega
  · simp [chatScaffold]

/-- C10: serializing a caller `Message` into a plain dict yields exactly
the two pairs role and content with the field values of the message unchanged —
no field is added, none is dropped. -/
theorem message_dict_roundtrip (m : Message) :
    messageToDict m = [("role", m.role), ("content", m.content)] := by
  simp [messageToDict, dictOfPairs, dictInsert, Message.pairs]

/-! ## upsert: delete-then-chunk-then-store (datastore.py, DataStore.upsert) -/

/-- Python truthiness of `document.id` (`if document.id`): present and
non-empty. -/
def truthyId (d : Document) : Bool :=
  match d.id with
  | none => false
  | some s => s != ""

/-- Embedding of `DocumentMetadataFilter(document_id=document.id)`: a
filter whose only criterion is the document id. -/
def docFilter (d : Document) : DocumentMetadataFilter :=
  { document_id := d.id, source := none, author := none,
    start_date := none, end_date := none }

/-- Dict from document id to its chunk list, as produced by the chunker and
consumed by `_upsert`. -/
abbrev ChunkMap := List (String × List DocumentChunk)

/-- Observable external calls made by one `upsert` run, in completion
order (the per-document deletes are fanned out concurrently and joined, so
their relative order is arbitrary; the list keeps input order). -/
inductive UpsertEvent where
  | delete (filter : DocumentMetadataFilter) (delete_all : Bool)
  | chunk (documents : List Document) (chunk_token_size : Option Nat)
  | insert (chunks : ChunkMap)
deriving DecidableEq

/-- Tests whether an event is a backend delete call. -/
def isDeleteEvent : UpsertEvent → Bool
  | UpsertEvent.delete _ _ => true
  | _ => false

/-- Embedding of `asyncio.gather` over fallible calls: all results in input
order on success, the failure propagated if any task fails. -/
def gatherExcept {α β : Type} (f : α → Except Err β) : List α → Except Err (List β)
  | [] => Except.ok []
  | a :: as =>
    match f a with
    | Except.error e => Except.error e
    | Except.ok b =>
      match gatherExcept f as with
      | Except.error e => Except.error e
      | Except.ok bs => Except.ok (b :: bs)

/-- Embedding of `DataStore.upsert`: fan out one filter-based delete per
document with truthy id, join them, then chunk the full document list and
hand the chunk map to the backend insertion primitive `_upsert`. Returns
the trace of external calls issued together with the result of the call. -/
def upsertRun
    (deleteFn : DocumentMetadataFilter → Bool → Except Err Bool)
    (chunker : List Document → Option Nat → ChunkMap)
    (insertFn : ChunkMap → Except Err (List String))
    (documents : List Document) (chunk_token_size : Option Nat) :
    List UpsertEvent × Except Err (List String) :=
  let dels := documents.filter truthyId
  let delEvents := dels.map (fun d => UpsertEvent.delete (docFilter d) false)
  match gatherExcept (fun d => deleteFn (docFilter d) false) dels with
  | Except.error e => (delEvents, Except.error e)
  | Except.ok _ =>
    let chunks := chunker documents chunk_token_size
    match insertFn chunks with
    | Except.error e =>
      (delEvents ++ [UpsertEvent.chunk documents chunk_token_size],
       Except.error e)
    | Except.ok ids =>
      (delEvents ++ [UpsertEvent.chunk documents chunk_token_size,
                     UpsertEvent.insert chunks],
       Except.ok ids)

theorem upsertRun_trace
    (deleteFn : DocumentMetadataFilter → Bool → Except Err Bool)
    (chunker : List Document → Option Nat → ChunkMap)
    (insertFn : ChunkMap → Except Err (List String))
    (documents : List Document) (chunk_token_size : Option Nat) :
    ∃ rest,
      (upsertRun deleteFn chunker insertFn documents chunk_token_size).1 =
        (documents.filter truthyId).map
          (fun d => UpsertEvent.delete (docFilter d) false) ++ rest ∧
      (∀ e ∈ rest, isDeleteEvent e = false) ∧
      (UpsertEvent.chunk documents chunk_token_size ∈
          (upsertRun deleteFn chunker insertFn documents chunk_token_size).1 ↔
        ∃ bs, gatherExcept (fun d => deleteFn (docFilter d) false)
            (documents.filter truthyId) = Except.ok bs) := by
  rcases hg : gatherExcept (fun d => deleteFn (docFilter d) false)
      (documents.filter truthyId) with e | bs
  · refine ⟨[], by simp [upsertRun, hg], by simp, ?_⟩
    simp [upsertRun, hg, List.mem_map]
  · rcases hi : insertFn (chunker documents chunk_token_size) with e | ids
    · refine ⟨[UpsertEvent.chunk documents chunk_token_size],
        by simp [upsertRun, hg, hi], by simp [isDeleteEvent], ?_⟩
      simp [upsertRun, hg, hi]
    · refine ⟨[UpsertEvent.chunk documents chunk_token_size,
        UpsertEvent.insert (chunker documents chunk_token_size)],
        by simp [upsertRun, hg, hi], by simp [isDeleteEvent], ?_⟩
      simp [upsertRun, hg, hi]

/-- C4: for every upsert batch, the issued backend delete calls are exactly
one filter-based delete (document-id filter, `delete_all = False`) per
document with a truthy id — documents without an id incur none — and they
all precede everything else in the trace; the chunking step runs exactly
when every delete completed successfully, so the insertion step never runs
before the deletes. -/
theorem upsert_deletes_precede_insert
    (deleteFn : DocumentMetadataFilter → Bool → Except Err Bool)
    (chunker : List Document → Option Nat → ChunkMap)
    (insertFn : ChunkMap → Except Err (List String))
    (documents : List Document) (chunk_token_size : Option Nat) :
    ∃ rest,
      (upsertRun deleteFn chunker insertFn documents chunk_token_size).1 =
        (documents.filter truthyId).map
          (fun d => UpsertEvent.delete (docFilter d) false) ++ rest ∧
      (∀ e ∈ rest, isDeleteEvent e = false) ∧
      (UpsertEvent.chunk documents chunk_token_size ∈
          (upsertRun deleteFn chunker insertFn documents chunk_token_size).1 ↔
        ∃ bs, gatherExcept (fun d => deleteFn (docFilter d) false)
            (documents.filter truthyId) = Except.ok bs) :=
  upsertRun_trace deleteFn chunker insertFn documents chunk_token_size

/-- Backend delete that always succeeds, for witnesses. -/
def delOk : DocumentMetadataFilter → Bool → Except Err Bool :=
  fun _ _ => Except.ok true

/-- Backend delete that always fails, for witnesses. -/
def delFail : DocumentMetadataFilter → Bool → Except Err Bool :=
  fun _ _ => Except.error "delete failed"

/-- Chunker producing no chunks, for witnesses. -/
def chunkerNone : List Document → Option Nat → ChunkMap :=
  fun _ _ => []

/-- Backend insertion that always succeeds, for witnesses. -/
def insertOk : ChunkMap → Except Err (List String) :=
  fun _ => Except.ok []

/-- First witness document, carrying a non-empty id. -/
def docW1 : Document := { id := some "d1", text := "text one", metadata := none }

/-- Second witness document, carrying no id. -/
def docW2 : Document := { id := none, text := "text two", metadata := none }

theorem upsert_deletes_precede_insert_witness :
    ∃ rest,
      (upsertRun delOk chunkerNone insertOk [docW1, docW2] none).1 =
        ([docW1, docW2].filter truthyId).map
          (fun d => UpsertEvent.delete (docFilter d) false) ++ rest ∧
      (∀ e ∈ rest, isDeleteEvent e = false) ∧
      (UpsertEvent.chunk [docW1, docW2] none ∈
          (upsertRun delOk chunkerNone insertOk [docW1, docW2] none).1 ↔
        ∃ bs, gatherExcept (fun d => delOk (docFilter d) false)
            ([docW1, docW2].filter truthyId) = Except.ok bs) :=
  upsert_deletes_precede_insert delOk chunkerNone insertOk [docW1, docW2] none

theorem gatherExcept_error_of_mem {α β : Type} (f : α → Except Err β)
    (l : List α) (a : α) (ha : a ∈ l) (e : Err)
    (he : f a = Except.error e) :
    ∃ e2, gatherExcept f l = Except.error e2 := by
  induction l with
  | nil => cases ha
  | cons b bs ih =>
    rcases hfb : f b with eb | vb
    · exact ⟨eb, by simp [gatherExcept, hfb]⟩
    · rcases List.mem_cons.mp ha with rfl | hmem
      · rw [hfb] at he
        cases he
      · obtain ⟨e2, h2⟩ := ih hmem
        exact ⟨e2, by simp [gatherExcept, hfb, h2]⟩

/-- C7: if the delete call of any truthy-id document of the batch fails,
the whole upsert fails — the result is an error and the trace contains only
the delete calls: no chunking event and no insertion event, hence no
partial success. -/
theorem upsert_delete_failure_aborts
    (deleteFn : DocumentMetadataFilter → Bool → Except Err Bool)
    (chunker : List Document → Option Nat → ChunkMap)
    (insertFn : ChunkMap → Except Err (List String))
    (documents : List Document) (chunk_token_size : Option Nat)
    (d : Document) (e : Err)
    (hd : d ∈ documents) (hid : truthyId d = true)
    (herr : deleteFn (docFilter d) false = Except.error e) :
    (∃ e2, (upsertRun deleteFn chunker insertFn documents chunk_token_size).2 =
      Except.error e2) ∧
    (upsertRun deleteFn chunker insertFn documents chunk_token_size).1 =
      (documents.filter truthyId).map
        (fun d => UpsertEvent.delete (docFilter d) false) := by
  have hmem : d ∈ documents.filter truthyId := List.mem_filter.mpr ⟨hd, hid⟩
  obtain ⟨e2, hg⟩ := gatherExcept_error_of_mem
    (fun d => deleteFn (docFilter d) false) (documents.filter truthyId)
    d hmem e herr
  exact ⟨⟨e2, by simp [upsertRun, hg]⟩, by simp [upsertRun, hg]⟩

theorem upsert_delete_failure_aborts_witness :
    truthyId docW1 = true ∧
    ((∃ e2, (upsertRun delFail chunkerNone insertOk [docW1] none).2 =
        Except.error e2) ∧
      (upsertRun delFail chunkerNone insertOk [docW1] none).1 =
        ([docW1].filter truthyId).map
          (fun d => UpsertEvent.delete (docFilter d) false)) :=
  ⟨by decide,
   upsert_delete_failure_aborts delFail chunkerNone insertOk [docW1] none
     docW1 "delete failed" (by simp) (by decide) rfl⟩

/-- C9: every delete call issued by upsert carries `delete_all = False` and
a filter whose only criterion is the document id of one input document with
a truthy id; it never issues a full wipe nor touches ids outside the
batch. -/
theorem upsert_delete_scoped
    (deleteFn : DocumentMetadataFilter → Bool → Except Err Bool)
    (chunker : List Document → Option Nat → ChunkMap)
    (insertFn : ChunkMap → Except Err (List String))
    (documents : List Document) (chunk_token_size : Option Nat)
    (f : DocumentMetadataFilter) (b : Bool)
    (hev : UpsertEvent.delete f b ∈
      (upsertRun deleteFn chunker insertFn documents chunk_token_size).1) :
    b = false ∧ ∃ d ∈ documents, truthyId d = true ∧ f = docFilter d ∧
      f.document_id = d.id ∧ f.source = none ∧ f.author = none ∧
      f.start_date = none ∧ f.end_date = none := by
  obtain ⟨rest, htr, hrest, _⟩ :=
    upsertRun_trace deleteFn chunker insertFn documents chunk_token_size
  rw [htr] at hev
  rcases List.mem_append.mp hev with hin | hin
  · obtain ⟨d, hd, heq⟩ := List.mem_map.mp hin
    obtain ⟨hfd, hbd⟩ := UpsertEvent.delete.inj heq
    obtain ⟨hdm, hdt⟩ := List.mem_filter.mp hd
    refine ⟨hbd.symm, d, hdm, hdt, hfd.symm, ?_, ?_, ?_, ?_, ?_⟩ <;>
      simp [hfd.symm, docFilter]
  · have := hrest _ hin
    simp [isDeleteEvent] at this

theorem upsert_delete_scoped_witness :
    (UpsertEvent.delete (docFilter docW1) false ∈
      (upsertRun delOk chunkerNone insertOk [docW1, docW2] none).1) ∧
    (false = false ∧ ∃ d ∈ [docW1, docW2], truthyId d = true ∧
      docFilter docW1 = docFilter d ∧
      (docFilter docW1).document_id = d.id ∧ (docFilter docW1).source = none ∧
      (docFilter docW1).author = none ∧ (docFilter docW1).start_date = none ∧
      (docFilter docW1).end_date = none) :=
  ⟨by decide,
   upsert_delete_scoped delOk chunkerNone insertOk [docW1, docW2] none
     (docFilter docW1) false (by decide)⟩

/-! ## retrieve: query-then-chat per result (datastore.py, DataStore.retrieve) -/

/-- Embedding of the per-result loop of `DataStore.retrieve`: for each
query result, if it has at least one match, build the two user messages
(the text of the top match, then the original query string), call `chat`, and
append its results; results-free queries are skipped. -/
def retrieveLoop
    (chatModel : List MsgDict → Except Err (List ChatResult)) :
    List QueryResult → Except Err (List ChatResult)
  | [] => Except.ok []
  | query_result :: rest =>
    match query_result.results with
    | [] => retrieveLoop chatModel rest
    | m :: _ =>
      match DataStore.chat chatModel
          [Message.mk "user" m.text,
           Message.mk "user" query_result.query] with
      | Except.error e => Except.error e
      | Except.ok chat_result =>
        match retrieveLoop chatModel rest with
        | Except.error e => Except.error e
        | Except.ok chat_results => Except.ok (chat_result ++ chat_results)

/-- Embedding of `DataStore.retrieve`: run `query` on the whole batch,
then the per-result chat loop. -/
def DataStore.retrieve
    (get_embeddings : List String → Except Err (List (List ℚ)))
    (search : List QueryWithEmbedding → Except Err (List QueryResult))
    (chatModel : List MsgDict → Except Err (List ChatResult))
    (queries : List Query) : Except Err (List ChatResult) :=
  match DataStore.query get_embeddings search queries with
  | Except.error e => Except.error e
  | Except.ok query_results => retrieveLoop chatModel query_results

/-- C5: for a query result with at least one match whose match list is
ordered by descending score, the chat invocation for that query is made on
exactly the two-message exchange user(text of the first match) followed by
user(original query string) — and the score of that first match is maximal
among the matches, so only the text of the single highest-scoring match is
used. -/
theorem retrieve_top1_selection
    (chatModel : List MsgDict → Except Err (List ChatResult))
    (query_result : QueryResult) (rest : List QueryResult)
    (m : DocumentChunkWithScore) (ms : List DocumentChunkWithScore)
    (hres : query_result.results = m :: ms)
    (hsorted : List.Sorted (fun a b => b.score ≤ a.score)
      query_result.results) :
    retrieveLoop chatModel (query_result :: rest) =
      (match DataStore.chat chatModel
          [Message.mk "user" m.text,
           Message.mk "user" query_result.query] with
       | Except.error e => Except.error e
       | Except.ok chat_result =>
         match retrieveLoop chatModel rest with
         | Except.error e => Except.error e
         | Except.ok chat_results =>
           Except.ok (chat_result ++ chat_results)) ∧
    ∀ x ∈ query_result.results, x.score ≤ m.score := by
  constructor
  · simp only [retrieveLoop, hres]
  · rw [hres] at hsorted ⊢
    rw [List.sorted_cons] at hsorted
    intro x hx
    rcases List.mem_cons.mp hx with rfl | hx
    · exact le_refl _
    · exact hsorted.1 x hx

/-- Chat model answering every prompt with one fixed assistant message, for
witnesses. -/
def chatEcho : List MsgDict → Except Err (List ChatResult) :=
  fun _ => Except.ok [ChatResult.mk (Message.mk "assistant" "ok")]

/-- A scored match of score 0.95, for witnesses. -/
def matchHi : DocumentChunkWithScore :=
  { id := some "c1", text := "premium plan", metadata := none,
    score := (19 : ℚ) / 20 }

/-- A scored match of score 0.9, for witnesses. -/
def matchLo : DocumentChunkWithScore :=
  { id := some "c2", text := "basic plan", metadata := none,
    score := (9 : ℚ) / 10 }

theorem retrieve_top1_selection_witness :
    (QueryResult.mk "q1" [matchHi, matchLo]).results = matchHi :: [matchLo] ∧
    (∀ x ∈ (QueryResult.mk "q1" [matchHi, matchLo]).results,
      x.score ≤ matchHi.score) :=
  ⟨rfl,
   (retrieve_top1_selection chatEcho (QueryResult.mk "q1" [matchHi, matchLo])
      [] matchHi [matchLo] rfl
      (by
        rw [List.sorted_cons]
        constructor
        · intro b hb
          simp only [List.mem_singleton] at hb
          subst hb
          norm_num [matchHi, matchLo]
        · simp [List.sorted_singleton])).2⟩

theorem retrieveLoop_filter_empty
    (chatModel : List MsgDict → Except Err (List ChatResult))
    (query_results : List QueryResult) :
    retrieveLoop chatModel query_results =
      retrieveLoop chatModel
        (query_results.filter (fun qr => !qr.results.isEmpty)) := by
  induction query_results with
  | nil => rfl
  | cons qr rest ih =>
    rcases hres : qr.results with _ | ⟨m, ms⟩
    · simpa [retrieveLoop, hres, List.filter_cons] using ih
    · simp only [retrieveLoop, hres, List.filter_cons, List.isEmpty_cons,
        Bool.not_false, if_pos]
      rw [ih]

/-- C6: query results with zero matches contribute nothing to the output
of retrieve and cause no error — the outcome of the loop on any result list equals
its outcome on the list with the zero-match results dropped, so the
remaining per-query results keep their input order without shifting. -/
theorem retrieve_empty_skip
    (get_embeddings : List String → Except Err (List (List ℚ)))
    (search : List QueryWithEmbedding → Except Err (List QueryResult))
    (chatModel : List MsgDict → Except Err (List ChatResult))
    (queries : List Query) (query_results : List QueryResult)
    (hq : DataStore.query get_embeddings search queries =
      Except.ok query_results) :
    DataStore.retrieve get_embeddings search chatModel queries =
      retrieveLoop chatModel query_results ∧
    retrieveLoop chatModel query_results =
      retrieveLoop chatModel
        (query_results.filter (fun qr => !qr.results.isEmpty)) := by
  constructor
  · simp [DataStore.retrieve, hq]
  · exact retrieveLoop_filter_empty chatModel query_results

theorem retrieve_empty_skip_witness :
    DataStore.query geTwo searchEcho
        [Query.mk "a" none none, Query.mk "b" none none] =
      Except.ok [QueryResult.mk "a" [], QueryResult.mk "b" []] ∧
    DataStore.retrieve geTwo searchEcho chatEcho
        [Query.mk "a" none none, Query.mk "b" none none] =
      retrieveLoop chatEcho [QueryResult.mk "a" [], QueryResult.mk "b" []] :=
  ⟨rfl,
   (retrieve_empty_skip geTwo searchEcho chatEcho
      [Query.mk "a" none none, Query.mk "b" none none]
      [QueryResult.mk "a" [], QueryResult.mk "b" []] rfl).1⟩

/-! ## delete: validation (DataStore.delete is abstract; validation is in
the serving layer, outside src/) -/

/-- Modelled from the spec: a delete parameter is meaningfully set when it
is a non-empty id list, a present filter, or an explicit `delete_all =
True` (Python truthiness of the three request fields). -/
def deleteMeaningful (ids : Option (List String))
    (filter : Option DocumentMetadataFilter)
    (delete_all : Option Bool) : Bool :=
  (match ids with | some (_ :: _) => true | _ => false) ||
    filter.isSome || delete_all.getD false

/-- Modelled from the spec: the delete operation validates its parameters
before contacting the backend — a call with none of ids, filter,
delete_all meaningfully set is rejected without any backend call. The
first component records whether the backend was contacted. -/
def deleteOp
    (backend : Option (List String) → Option DocumentMetadataFilter →
      Option Bool → Except Err Bool)
    (ids : Option (List String)) (filter : Option DocumentMetadataFilter)
    (delete_all : Option Bool) : Bool × Except Err Bool :=
  if deleteMeaningful ids filter delete_all then
    (true, backend ids filter delete_all)
  else
    (false, Except.error "One of ids, filter, or delete_all is required")

/-- C8: whenever none of the three delete parameters is meaningfully set —
in particular for `ids = none, filter = none` with `delete_all` false or
absent — the delete operation is rejected as a validation failure with the
backend left uncontacted, whatever the backend is. -/
theorem delete_validation
    (backend : Option (List String) → Option DocumentMetadataFilter →
      Option Bool → Except Err Bool)
    (ids : Option (List String)) (filter : Option DocumentMetadataFilter)
    (delete_all : Option Bool)
    (h : deleteMeaningful ids filter delete_all = false) :
    deleteOp backend ids filter delete_all =
      (false, Except.error "One of ids, filter, or delete_all is required") := by
  simp [deleteOp, h]

/-- Backend delete primitive that always succeeds, for the C8 witness. -/
def backendDel : Option (List String) → Option DocumentMetadataFilter →
    Option Bool → Except Err Bool :=
  fun _ _ _ => Except.ok true

theorem delete_validation_witness :
    deleteMeaningful none none (some false) = false ∧
    deleteMeaningful none none none = false ∧
    deleteOp backendDel none none (some false) =
      (false, Except.error "One of ids, filter, or delete_all is required") ∧
    deleteOp backendDel none none none =
      (false, Except.error "One of ids, filter, or delete_all is required") :=
  ⟨rfl, rfl,
   delete_validation backendDel none none (some false) rfl,
   delete_validation backendDel none none none rfl⟩
